import Mathlib

/-!
A shallow embedding of the invoice backend in `src/index.js` (an Express +
MongoDB service) and proofs about its behaviour.

Modelling conventions:
* JS finite numbers are modelled as rationals (`ℚ`); `NaN` is modelled as
  `none` in an `Option ℚ` where it can arise (`parseFloat` of a non-numeric
  string, a missing `item.total`).  The expression `x || 0` from the source
  is `orZero`.
* Dates (`new Date(...)`) are opaque timestamps modelled as `Nat`.
* MongoDB collections are lists of documents; `insertOne` appends,
  `findOne` with a sort on `nomorInvoice` descending is "maximum of the
  filtered list", `updateOne` rewrites the first document whose `_id`
  matches, `countDocuments` is the length of the filtered list.
* The two global collection handles (`hotelInvoicesCollection`,
  `taxplusInvoicesCollection`) are both defined once `startServer` has
  connected, so `getCollection` yields a collection for every `type`
  string; the `Option` layer mirrors the handlers' `if (!collection)`
  guard, which can only fire before initialisation.
* The wall clock read by `new Date()` in the create handler is passed in
  explicitly as `nowYear`/`nowMonth`; the generated `_id` and `createdAt`
  are likewise parameters.
-/

namespace InvoiceTax

/-- The two MongoDB collections, `hotel_invoices` and `taxplus_invoices`. -/
inductive CollKey
| hotel
| taxplus
deriving DecidableEq

/-- A line item; only its `total` field is read by the service
(`item.total || 0`), `none` models an absent total. -/
structure Item where
  total : Option ℚ
deriving DecidableEq

/-- A payment record as pushed by the handlers; `amount` is the result of
`parseFloat`, so `none` models a `NaN` amount. -/
structure Payment where
  amount : Option ℚ
  date : Nat
  notes : String
deriving DecidableEq

/-- An invoice document, with the fields the source reads or writes.
`docId` stands for the Mongo `_id`. -/
structure Invoice where
  docId : Nat
  nomorInvoice : String
  namaKlien : String
  noTelepon : String
  tanggalInvoice : Nat
  items : List Item
  payments : List Payment
  type : String
  status : String
  createdAt : Nat
deriving DecidableEq

/-- The persistent state: the two collections' contents. -/
structure Store where
  hotel : List Invoice
  taxplus : List Invoice
deriving DecidableEq

def Store.get (st : Store) : CollKey → List Invoice
| .hotel => st.hotel
| .taxplus => st.taxplus

def Store.set (st : Store) : CollKey → List Invoice → Store
| .hotel, l => { st with hotel := l }
| .taxplus, l => { st with taxplus := l }

/-- The error outcomes of the handlers (HTTP 400/404/500 responses).
`updateFailed` is the `modifiedCount === 0` / missing-document 500 branch
of the payment handler, unreachable in this sequential model. -/
inductive ApiError
| invalidType
| invalidId
| invalidAmount
| invalidStatus
| notFound
| updateFailed
deriving DecidableEq

/-- A JS value as it can appear in a request body field that the source
feeds to truthiness tests, `<=` and `parseFloat` (the `amount` field of
the payment handler): a finite number, a string, `NaN`, or absent. -/
inductive JSVal
| num (q : ℚ)
| str (s : String)
| nan
| undef
deriving DecidableEq

/-- Value of a list of decimal digit characters. -/
def digitsToNat (l : List Char) : Nat :=
  l.foldl (fun a c => a * 10 + (c.toNat - 48)) 0

/-- JS `parseInt` restricted to the inputs this service meets (no leading
whitespace or sign): the longest leading run of decimal digits, `none`
(`NaN`) when there is none. -/
def jsParseInt (s : String) : Option Nat :=
  let ds := s.toList.takeWhile Char.isDigit
  if ds.isEmpty then none else some (digitsToNat ds)

/-- JS `ToNumber` on a string, restricted to the fragment exercised here:
the empty string converts to `0`, a pure digit string to its value, and
anything else (e.g. `"abc"`) to `NaN` (`none`). -/
def strToNumber (s : String) : Option ℚ :=
  if s = "" then some 0
  else if s.toList.all Char.isDigit then some ((digitsToNat s.toList : ℚ))
  else none

/-- JS `ToNumber`, as used implicitly by `amount <= 0`. -/
def toNumber : JSVal → Option ℚ
| .num q => some q
| .str s => strToNumber s
| .nan => none
| .undef => none

/-- JS falsiness: `!amount` is true exactly on `0`, `NaN`, `""` and
`undefined` among the modelled values. -/
def jsFalsy : JSVal → Bool
| .num q => decide (q = 0)
| .str s => decide (s = "")
| .nan => true
| .undef => true

/-- The test `amount <= 0`: both sides convert to numbers and any
comparison against `NaN` is false. -/
def jsLeqZero (v : JSVal) : Bool :=
  match toNumber v with
  | none => false
  | some q => decide (q ≤ 0)

/-- JS `parseFloat`, restricted to the fragment exercised here: a number
stays itself, a string yields the value of its leading digit run or `NaN`
(`none`), `NaN`/`undefined` yield `NaN`. -/
def jsParseFloat : JSVal → Option ℚ
| .num q => some q
| .str s =>
    let ds := s.toList.takeWhile Char.isDigit
    if ds.isEmpty then none else some ((digitsToNat ds : ℚ))
| .nan => none
| .undef => none

/-- The JS idiom `x || 0` applied to a possibly-NaN/missing number:
`NaN`, `undefined` and `0` all collapse to `0`. -/
def orZero : Option ℚ → ℚ
| none => 0
| some q => q

/-- `String.prototype.padStart(w, c)`: pad on the left up to width `w`. -/
def padStart (s : String) (w : Nat) (c : Char) : String :=
  String.mk (List.replicate (w - s.length) c) ++ s

/-- `String(now.getMonth() + 1).padStart(2, '0')`. -/
def pad2 (n : Nat) : String := padStart (toString n) 2 '0'

/-- `s.split('/').pop()`. -/
def lastSegment (s : String) : String := (s.splitOn "/").getLastD ""

/-- Boolean list-prefix test on characters (the anchored part of the
regex `^pat`). -/
def listIsPre : List Char → List Char → Bool
| [], _ => true
| _ :: _, [] => false
| c :: cs, d :: ds => c == d && listIsPre cs ds

/-- The regex test `new RegExp('^' + pat).test(s)` for a pattern without
metacharacters (the invoice-number patterns only contain letters, digits
and slashes). -/
def reTest (pat s : String) : Bool := listIsPre pat.toList s.toList

/-- Boolean substring test (used for the unanchored `$regex` filter on
`namaKlien`). -/
def listIsInf (n : List Char) : List Char → Bool
| [] => n.isEmpty
| c :: cs => listIsPre n (c :: cs) || listIsInf n cs

/-- Case-insensitive substring match: the `$regex: search, $options: 'i'`
filter for a `search` string without regex metacharacters. -/
def containsCI (pat s : String) : Bool :=
  listIsInf pat.toLower.toList s.toLower.toList

/-- `getCollection(type)`: `type === 'hotel' ? hotelInvoicesCollection :
taxplusInvoicesCollection`.  Which collection a `type` string selects. -/
def ckOf (type : String) : CollKey :=
  if type = "hotel" then CollKey.hotel else CollKey.taxplus

/-- `getCollection` as seen by the handlers: once the server has
connected, both collection handles are defined, so every `type` yields a
collection; `none` (the `if (!collection)` branch) only occurs before
initialisation. -/
def getCollection (type : String) : Option CollKey := some (ckOf type)

/-- `items.reduce((sum, item) => sum + (item.total || 0), 0)`. -/
def sumTotals (items : List Item) : ℚ :=
  items.foldl (fun s it => s + orZero it.total) 0

/-- `payments.reduce((sum, p) => sum + (p.amount || 0), 0)`. -/
def sumPaid (ps : List Payment) : ℚ :=
  ps.foldl (fun s p => s + orZero p.amount) 0

/-- The status derivation of the payment handler: `lunas` (paid) when
`totalPaid >= totalAmount`, else `dp lunas` (deposit-paid) when
`totalPaid > 0`, else `belum lunas` (unpaid). -/
def statusRule (totalPaid totalAmount : ℚ) : String :=
  if totalPaid ≥ totalAmount then "lunas"
  else if totalPaid > 0 then "dp lunas"
  else "belum lunas"

/-- Strict lexicographic order on character lists by code point (UTF-8
byte order and code-point order agree). -/
def lexLtB : List Char → List Char → Bool
| [], [] => false
| [], _ :: _ => true
| _ :: _, [] => false
| a :: as, b :: bs => decide (a < b) || (a == b && lexLtB as bs)

/-- The order MongoDB uses to sort `nomorInvoice` strings (bytewise on
the UTF-8 encoding). -/
def strLtB (a b : String) : Bool := lexLtB a.toList b.toList

/-- `findOne(filter, { sort: { nomorInvoice: -1 } })` on an in-memory
collection: a document with the largest `nomorInvoice`, `none` on an
empty list. -/
def findMaxNomor : List Invoice → Option Invoice
| [] => none
| i :: is =>
    match findMaxNomor is with
    | none => some i
    | some j => if strLtB j.nomorInvoice i.nomorInvoice then some i else some j

/-- `updateOne({ _id: oid }, f)`: rewrite the first document whose id
matches. -/
def updateById : List Invoice → Nat → (Invoice → Invoice) → List Invoice
| [], _, _ => []
| i :: is, oid, f =>
    if i.docId == oid then f i :: is else i :: updateById is oid f

/-- The body of a create request (`POST /api/invoices/:type`):
`{ namaKlien, noTelepon, tanggalInvoice, items, downPayment = 0 }` —
an absent `downPayment` defaults to `0` by destructuring. -/
structure CreateReq where
  namaKlien : String
  noTelepon : String
  tanggalInvoice : Nat
  items : List Item
  downPayment : ℚ
deriving DecidableEq

/-- `type === 'hotel' ? 'INV/SV' : 'INV/TP'`. -/
def prefixFor (type : String) : String :=
  if type = "hotel" then "INV/SV" else "INV/TP"

/-- The anchored pattern `` `^${prefix}/${year}/${month}/` `` used both to
filter existing numbers and as the head of the generated number. -/
def patOf (type : String) (nowYear nowMonth : Nat) : String :=
  prefixFor type ++ "/" ++ toString nowYear ++ "/" ++ pad2 nowMonth ++ "/"

/-- JS `String(x)` on a possibly-NaN number. -/
def numToStr : Option Nat → String
| some n => toString n
| none => "NaN"

/-- Lines 127-136: find the last invoice of the current prefix/year/month
scope and compute the next sequence number; `none` models the `NaN` that
`parseInt` produces on a malformed trailing segment.  `nextIdNumber` stays
`1` when no document matches or when the found document's `nomorInvoice`
is falsy (the `lastInvoice && lastInvoice.nomorInvoice` test). -/
def nextSeq (coll : List Invoice) (pat : String) : Option Nat :=
  match findMaxNomor (coll.filter (fun i => reTest pat i.nomorInvoice)) with
  | none => some 1
  | some li =>
      if li.nomorInvoice = "" then some 1
      else (jsParseInt (lastSegment li.nomorInvoice)).map (· + 1)

/-- Lines 143-156: the `payments` array seeded at creation.  The stored
amount is `parseFloat(downPayment)`, which is `downPayment` itself for a
numeric body field; its date is `new Date(tanggalInvoice)`. -/
def createPayments (req : CreateReq) : List Payment :=
  if req.downPayment > 0 then
    [{ amount := some req.downPayment, date := req.tanggalInvoice,
       notes := "Uang Muka (DP)" }]
  else []

/-- Lines 142-156: the status assigned at creation. -/
def createStatus (req : CreateReq) : String :=
  if req.downPayment > 0 then
    if req.downPayment ≥ sumTotals req.items then "lunas" else "dp lunas"
  else "belum lunas"

/-- The document assembled by the create handler, given the contents of
the target collection, the wall-clock year/month, the generated `_id` and
the `createdAt` timestamp. -/
def createdInvoice (coll : List Invoice) (type : String) (req : CreateReq)
    (nowYear nowMonth newId createdAt : Nat) : Invoice :=
  { docId := newId,
    nomorInvoice :=
      patOf type nowYear nowMonth ++
        padStart (numToStr (nextSeq coll (patOf type nowYear nowMonth))) 4 '0',
    namaKlien := req.namaKlien,
    noTelepon := req.noTelepon,
    tanggalInvoice := req.tanggalInvoice,
    items := req.items,
    payments := createPayments req,
    type := type,
    status := createStatus req,
    createdAt := createdAt }

/-- `POST /api/invoices/:type` (lines 113-177): allocate the next invoice
number in the current wall-clock scope, derive payments/status from
`downPayment`, and insert the document. -/
def createInvoice (st : Store) (type : String) (req : CreateReq)
    (nowYear nowMonth newId createdAt : Nat) :
    Except ApiError (Store × Invoice) :=
  match getCollection type with
  | none => .error .invalidType
  | some ck =>
      let inv := createdInvoice (st.get ck) type req nowYear nowMonth newId createdAt
      .ok (st.set ck (st.get ck ++ [inv]), inv)

/-- The body of a payment request (`POST /api/invoices/:type/:id/payment`):
`{ amount, date, notes }`; `date := none` models an absent (or falsy)
date, in which case `new Date()` (the `now` parameter) is used. -/
structure PayReq where
  amount : JSVal
  date : Option Nat
  notes : Option String
deriving DecidableEq

/-- `notes || 'Pembayaran'`: an absent or empty notes string defaults. -/
def jsOrStr : Option String → String → String
| none, d => d
| some s, d => if s = "" then d else s

/-- The `newPayment` object of the payment handler (lines 193-197):
`{ amount: parseFloat(amount), date: date ? new Date(date) : new Date(),
notes: notes || 'Pembayaran' }`. -/
def newPaymentOf (req : PayReq) (now : Nat) : Payment :=
  { amount := jsParseFloat req.amount,
    date := match req.date with | some d => d | none => now,
    notes := jsOrStr req.notes "Pembayaran" }

/-- `POST /api/invoices/:type/:id/payment` (lines 180-229).  The `id`
route parameter is `none` when `ObjectId.isValid` rejects it, `some oid`
otherwise.  Validation (collection, id, amount) happens before any read
or write; the handler then pushes the payment, re-reads the document,
derives the new status from the updated totals and writes it back,
returning the new status. -/
def addPayment (st : Store) (type : String) (idp : Option Nat)
    (req : PayReq) (now : Nat) : Except ApiError (Store × String) :=
  match getCollection type with
  | none => .error .invalidType
  | some ck =>
      match idp with
      | none => .error .invalidId
      | some oid =>
          if jsFalsy req.amount || jsLeqZero req.amount then
            .error .invalidAmount
          else
            match (st.get ck).find? (fun i => i.docId == oid) with
            | none => .error .notFound
            | some _ =>
                let newPayment : Payment := newPaymentOf req now
                let st1 := st.set ck (updateById (st.get ck) oid
                  (fun i => { i with payments := i.payments ++ [newPayment] }))
                match (st1.get ck).find? (fun i => i.docId == oid) with
                | none => .error .updateFailed
                | some updated =>
                    let newStatus :=
                      statusRule (sumPaid updated.payments) (sumTotals updated.items)
                    let st2 := st1.set ck (updateById (st1.get ck) oid
                      (fun i => { i with status := newStatus }))
                    .ok (st2, newStatus)

/-- The `validStatuses` array of the status handler. -/
def validStatuses : List String := ["lunas", "belum lunas", "dp lunas"]

/-- `PATCH /api/invoices/:type/:id/status` (lines 232-262): validate the
collection, the id and the status value, then overwrite `status` on the
matched document; `matchedCount === 0` becomes `notFound`. -/
def setStatus (st : Store) (type : String) (idp : Option Nat)
    (status : String) : Except ApiError Store :=
  match getCollection type with
  | none => .error .invalidType
  | some ck =>
      match idp with
      | none => .error .invalidId
      | some oid =>
          if !(validStatuses.contains status) then .error .invalidStatus
          else if ((st.get ck).find? (fun i => i.docId == oid)).isNone then
            .error .notFound
          else
            .ok (st.set ck (updateById (st.get ck) oid
              (fun i => { i with status := status })))

/-- Insertion step of a sort by `tanggalInvoice` descending. -/
def insertByDateDesc (i : Invoice) : List Invoice → List Invoice
| [] => [i]
| j :: js =>
    if j.tanggalInvoice < i.tanggalInvoice then i :: j :: js
    else j :: insertByDateDesc i js

/-- `.sort({ tanggalInvoice: -1 })`. -/
def sortByDateDesc : List Invoice → List Invoice
| [] => []
| i :: is => insertByDateDesc i (sortByDateDesc is)

/-- The list envelope `{ data, total, page, limit, totalPages }`.
`totalPages = none` models the non-finite JS value
(`Math.ceil(total / 0)` is `Infinity`, or `NaN` when `total` is `0`). -/
structure ListResp where
  data : List Invoice
  total : Nat
  page : Nat
  limit : Nat
  totalPages : Option Nat
deriving DecidableEq

/-- `GET /api/invoices/:type` (lines 66-94).  `page` and `limit` are the
parsed query parameters (the handler assumes `page ≥ 1`; `skip` is
`(page-1)*limit`).  An empty `search` is falsy, so the filter is empty;
otherwise it is a case-insensitive substring match on `namaKlien`.  A
`limit` of `0` is passed straight to the cursor, and Mongo's `limit(0)`
means "no limit"; `totalPages` is `Math.ceil(total / limit)` with no
guard on `limit = 0`. -/
def listInvoices (st : Store) (type : String) (search : String)
    (page limit : Nat) : Except ApiError ListResp :=
  match getCollection type with
  | none => .error .invalidType
  | some ck =>
      let hits := (st.get ck).filter
        (fun inv => if search = "" then true else containsCI search inv.namaKlien)
      let sorted := sortByDateDesc hits
      let skip := (page - 1) * limit
      let paged := if limit = 0 then sorted.drop skip
                   else (sorted.drop skip).take limit
      let total := hits.length
      .ok { data := paged, total := total, page := page, limit := limit,
            totalPages := if limit = 0 then none
                          else some ((total + limit - 1) / limit) }

/-! ## Sample data used for concrete evaluations -/

/-- A stored hotel invoice with one 10-unit line item and no payments. -/
def sampleInv : Invoice :=
  { docId := 1, nomorInvoice := "INV/SV/2025/10/0001", namaKlien := "Alice",
    noTelepon := "08", tanggalInvoice := 3, items := [⟨some 10⟩],
    payments := [], type := "hotel", status := "belum lunas", createdAt := 2 }

/-- A store holding just `sampleInv` in the hotel collection. -/
def sampleStore : Store := ⟨[sampleInv], []⟩

/-- A second hotel invoice, for list pagination examples. -/
def sampleInvB : Invoice :=
  { sampleInv with
      docId := 2
      nomorInvoice := "INV/SV/2025/10/0002"
      tanggalInvoice := 5 }

/-- A store holding two hotel invoices. -/
def pairStore : Store := ⟨[sampleInv, sampleInvB], []⟩

/-! ## Helper lemmas -/

theorem Store.get_set (st : Store) (ck : CollKey) (l : List Invoice) :
    (st.set ck l).get ck = l := by
  cases ck <;> rfl

theorem find?_updateById (l : List Invoice) (oid : Nat) (f : Invoice → Invoice)
    (hf : ∀ i, (f i).docId = i.docId) :
    (updateById l oid f).find? (fun i => i.docId == oid) =
      (l.find? (fun i => i.docId == oid)).map f := by
  induction l with
  | nil => rfl
  | cons i is ih =>
      by_cases h : i.docId = oid
      · simp [updateById, h, hf]
      · simp [updateById, h, ih]

theorem find?_updateById_payments (l : List Invoice) (oid : Nat) (P : List Payment) :
    (updateById l oid (fun i => { i with payments := i.payments ++ P })).find?
        (fun i => i.docId == oid) =
      (l.find? (fun i => i.docId == oid)).map
        (fun i => { i with payments := i.payments ++ P }) :=
  find?_updateById l oid _ (fun _ => rfl)

theorem find?_updateById_status (l : List Invoice) (oid : Nat) (S : String) :
    (updateById l oid (fun i => { i with status := S })).find?
        (fun i => i.docId == oid) =
      (l.find? (fun i => i.docId == oid)).map (fun i => { i with status := S }) :=
  find?_updateById l oid _ (fun _ => rfl)

theorem lexLtB_irrefl (l : List Char) : lexLtB l l = false := by
  induction l with
  | nil => rfl
  | cons c cs ih => simp [lexLtB, ih]

theorem lexLtB_trans (a b c : List Char) (hab : lexLtB a b = true)
    (hbc : lexLtB b c = true) : lexLtB a c = true := by
  induction a generalizing b c with
  | nil =>
      cases b with
      | nil => simp [lexLtB] at hab
      | cons y ys =>
          cases c with
          | nil => simp [lexLtB] at hbc
          | cons z zs => rfl
  | cons x xs ih =>
      cases b with
      | nil => simp [lexLtB] at hab
      | cons y ys =>
          cases c with
          | nil => simp [lexLtB] at hbc
          | cons z zs =>
              simp only [lexLtB, Bool.or_eq_true, Bool.and_eq_true,
                decide_eq_true_eq, beq_iff_eq] at hab hbc ⊢
              rcases hab with h1 | ⟨h1, h1'⟩ <;> rcases hbc with h2 | ⟨h2, h2'⟩
              · exact Or.inl (lt_trans h1 h2)
              · exact Or.inl (h2 ▸ h1)
              · exact Or.inl (h1 ▸ h2)
              · exact Or.inr ⟨h1.trans h2, ih ys zs h1' h2'⟩

theorem lexLtB_eq_of_not_lt (a b : List Char)
    (hab : lexLtB a b = false) (hba : lexLtB b a = false) : a = b := by
  induction a generalizing b with
  | nil =>
      cases b with
      | nil => rfl
      | cons y ys => simp [lexLtB] at hab
  | cons x xs ih =>
      cases b with
      | nil => simp [lexLtB] at hba
      | cons y ys =>
          simp only [lexLtB, Bool.or_eq_false_iff, Bool.and_eq_false_iff,
            decide_eq_false_iff_not, beq_eq_false_iff_ne, ne_eq] at hab hba
          obtain ⟨hxy, h1⟩ := hab
          obtain ⟨hyx, h2⟩ := hba
          have hx : x = y := le_antisymm (not_lt.mp hyx) (not_lt.mp hxy)
          subst hx
          have h1' : lexLtB xs ys = false := by
            rcases h1 with h | h
            · exact absurd rfl h
            · exact h
          have h2' : lexLtB ys xs = false := by
            rcases h2 with h | h
            · exact absurd rfl h
            · exact h
          rw [ih ys h1' h2']

theorem strLtB_eq_of_not_lt (a b : String)
    (hab : strLtB a b = false) (hba : strLtB b a = false) : a = b := by
  have h := lexLtB_eq_of_not_lt a.toList b.toList hab hba
  cases a; cases b
  simpa [String.toList] using congrArg String.mk h

theorem strLtB_irrefl (s : String) : strLtB s s = false :=
  lexLtB_irrefl s.toList

theorem findMaxNomor_ne_none (i : Invoice) (is : List Invoice) :
    findMaxNomor (i :: is) ≠ none := by
  simp only [findMaxNomor]
  cases findMaxNomor is with
  | none => simp
  | some j =>
      by_cases h : strLtB j.nomorInvoice i.nomorInvoice = true <;> simp [h]

theorem findMaxNomor_spec (l : List Invoice) (j : Invoice)
    (h : findMaxNomor l = some j) :
    j ∈ l ∧ ∀ i ∈ l, strLtB j.nomorInvoice i.nomorInvoice = false := by
  induction l generalizing j with
  | nil => simp [findMaxNomor] at h
  | cons i is ih =>
      simp only [findMaxNomor] at h
      cases hm : findMaxNomor is with
      | none =>
          rw [hm] at h
          cases is with
          | nil =>
              obtain rfl : i = j := by simpa using h
              refine ⟨List.mem_cons_self _ _, ?_⟩
              intro x hx
              obtain rfl : x = i := by simpa using hx
              exact strLtB_irrefl _
          | cons i' is' => exact absurd hm (findMaxNomor_ne_none i' is')
      | some j' =>
          rw [hm] at h
          have h' : (if strLtB j'.nomorInvoice i.nomorInvoice = true then some i
              else some j') = some j := h
          obtain ⟨hj'm, hj'max⟩ := ih j' hm
          by_cases hlt : strLtB j'.nomorInvoice i.nomorInvoice = true
          · rw [if_pos hlt] at h'
            obtain rfl : i = j := by simpa using h'
            refine ⟨List.mem_cons_self _ _, ?_⟩
            intro x hx
            rcases List.mem_cons.mp hx with rfl | hx'
            · exact strLtB_irrefl _
            · by_contra hc
              have hc' : strLtB i.nomorInvoice x.nomorInvoice = true := by
                cases hcx : strLtB i.nomorInvoice x.nomorInvoice
                · exact absurd hcx hc
                · rfl
              have : strLtB j'.nomorInvoice x.nomorInvoice = true :=
                lexLtB_trans _ _ _ hlt hc'
              rw [hj'max x hx'] at this
              exact Bool.false_ne_true this
          · rw [if_neg hlt] at h'
            obtain rfl : j' = j := by simpa using h'
            refine ⟨List.mem_cons_of_mem _ hj'm, ?_⟩
            intro x hx
            rcases List.mem_cons.mp hx with rfl | hx'
            · exact Bool.not_eq_true _ ▸ Bool.of_not_eq_true hlt
            · exact hj'max x hx'

theorem listIsPre_append_self (l m : List Char) : listIsPre l (l ++ m) = true := by
  induction l with
  | nil => rfl
  | cons c cs ih => simp [listIsPre, ih]

theorem toList_append (s t : String) : (s ++ t).toList = s.toList ++ t.toList := rfl

theorem reTest_append_self (p s : String) : reTest p (p ++ s) = true := by
  unfold reTest
  rw [toList_append]
  exact listIsPre_append_self _ _

theorem listIsPre_nil_right (l : List Char) (h : listIsPre l [] = true) : l = [] := by
  cases l with
  | nil => rfl
  | cons c cs => simp [listIsPre] at h

theorem reTest_patOf_ne_empty (type : String) (ny nm : Nat) (x : String)
    (h : reTest (patOf type ny nm) x = true) : x ≠ "" := by
  rintro rfl
  have h2 : (patOf type ny nm).toList = [] := listIsPre_nil_right _ h
  simp only [patOf, toList_append, List.append_eq_nil] at h2
  have h3 : (prefixFor type).toList = [] := h2.1.1.1.1.1
  unfold prefixFor at h3
  by_cases ht : type = "hotel"
  · rw [if_pos ht] at h3
    exact absurd h3 (by decide)
  · rw [if_neg ht] at h3
    exact absurd h3 (by decide)

theorem createInvoice_eq (st : Store) (type : String) (req : CreateReq)
    (ny nm nid ca : Nat) :
    createInvoice st type req ny nm nid ca =
      .ok (st.set (ckOf type)
            (st.get (ckOf type) ++ [createdInvoice (st.get (ckOf type)) type req ny nm nid ca]),
          createdInvoice (st.get (ckOf type)) type req ny nm nid ca) := rfl

/-- The successful path of `addPayment` in closed form: the payment is
pushed onto the found invoice, the status is recomputed from the updated
document's totals and written back, and the new status is returned. -/
theorem addPayment_ok (st : Store) (type : String) (oid : Nat) (req : PayReq)
    (now : Nat) (inv : Invoice)
    (hfind : (st.get (ckOf type)).find? (fun i => i.docId == oid) = some inv)
    (hamt : (jsFalsy req.amount || jsLeqZero req.amount) = false) :
    ∃ st' inv',
      addPayment st type (some oid) req now = .ok (st', inv'.status) ∧
      (st'.get (ckOf type)).find? (fun i => i.docId == oid) = some inv' ∧
      inv'.payments = inv.payments ++ [newPaymentOf req now] ∧
      inv'.items = inv.items ∧
      inv'.status = statusRule (sumPaid inv'.payments) (sumTotals inv'.items) := by
  have hck : getCollection type = some (ckOf type) := rfl
  simp only [addPayment, hck, hamt, Bool.false_eq_true, if_false, hfind,
    Store.get_set, find?_updateById_payments, find?_updateById_status,
    Option.map_some']
  refine ⟨_,
    { inv with
        payments := inv.payments ++ [newPaymentOf req now]
        status := statusRule (sumPaid (inv.payments ++ [newPaymentOf req now]))
          (sumTotals inv.items) },
    rfl, ?_, rfl, rfl, rfl⟩
  simp only [Store.get_set, find?_updateById_payments, find?_updateById_status,
    hfind, Option.map_some']

/-- A failed amount guard short-circuits the payment handler before any
read or write. -/
theorem addPayment_guard_error (st : Store) (type : String) (oid : Nat)
    (req : PayReq) (now : Nat)
    (hamt : (jsFalsy req.amount || jsLeqZero req.amount) = true) :
    addPayment st type (some oid) req now = .error .invalidAmount := by
  simp only [addPayment, show getCollection type = some (ckOf type) from rfl,
    hamt, if_true]

/-- Whenever the payment handler reports success, the invoice it rewrote
carries the status derived from its own updated totals. -/
theorem addPayment_ok_inversion (st : Store) (type : String) (oid : Nat)
    (req : PayReq) (now : Nat) (st' : Store) (s : String)
    (h : addPayment st type (some oid) req now = .ok (st', s)) :
    ∀ inv', (st'.get (ckOf type)).find? (fun i => i.docId == oid) = some inv' →
      inv'.status = statusRule (sumPaid inv'.payments) (sumTotals inv'.items) := by
  cases hb : (jsFalsy req.amount || jsLeqZero req.amount) with
  | true =>
      rw [addPayment_guard_error st type oid req now hb] at h
      cases h
  | false =>
      cases hfind : (st.get (ckOf type)).find? (fun i => i.docId == oid) with
      | none =>
          have herr : addPayment st type (some oid) req now = .error .notFound := by
            simp only [addPayment, show getCollection type = some (ckOf type) from rfl,
              hb, Bool.false_eq_true, if_false, hfind]
          rw [herr] at h
          cases h
      | some inv =>
          obtain ⟨st2, inv', heq, hf2, hpay, hit, hstat⟩ :=
            addPayment_ok st type oid req now inv hfind hb
          rw [heq] at h
          simp only [Except.ok.injEq, Prod.mk.injEq] at h
          obtain ⟨rfl, rfl⟩ := h
          intro inv'' hinv''
          rw [hf2] at hinv''
          simp only [Option.some.injEq] at hinv''
          rw [← hinv'']
          exact hstat

/-! ## Claim theorems -/

/-- C1 (failing input): with `limit = 0` the list handler performs the
unguarded computation `Math.ceil(total / 0)` — modelled as the non-finite
marker `none` — and, because Mongo's `limit(0)` means "no limit", returns
both stored documents rather than at most `0`.  This contradicts the
claim that `limit = 0` is explicitly guarded and that at most `limit`
documents are returned. -/
theorem list_limit_zero_unguarded :
    (listInvoices pairStore "hotel" "" 1 0).toOption.map
      (fun r => (r.data.length, r.totalPages)) = some (2, none) := by
  with_unfolding_all rfl

/-- C2 (counterexample): a create request whose collection selector is
the unrecognised string "garbage" is not rejected with an InvalidType
error; it succeeds and inserts the document into the default (taxplus)
collection. -/
theorem create_unknown_type_not_rejected :
    (createInvoice ⟨[], []⟩ "garbage" ⟨"A", "T", 0, [], 0⟩ 2025 10 7 0).toOption.map
      (fun p => (p.1.hotel.length, p.1.taxplus.length)) = some (0, 1) := by
  with_unfolding_all rfl

/-- C2 (amended): a create request never fails with InvalidType, whatever
the collection selector: `hotel` targets the hotel collection and every
other selector targets the default (taxplus) collection (`ckOf`), and the
new document is appended there; the InvalidType branch can fire only
before the collection handles are initialised. -/
theorem create_selector_total (st : Store) (type : String) (req : CreateReq)
    (ny nm nid ca : Nat) :
    ∃ st' inv, createInvoice st type req ny nm nid ca = .ok (st', inv) ∧
      st'.get (ckOf type) = st.get (ckOf type) ++ [inv] := by
  refine ⟨_, _, createInvoice_eq st type req ny nm nid ca, ?_⟩
  rw [Store.get_set]

/-- C9: the year and month embedded in the generated invoice number come
from the wall-clock parameters of the create operation, never from the
caller-supplied `tanggalInvoice`: changing the invoice date (e.g. to a
different month) leaves the generated number unchanged, and the number
always starts with the current wall-clock `prefix/year/month/` scope. -/
theorem invoice_number_uses_wall_clock (st : Store) (type : String)
    (req : CreateReq) (ny nm nid ca d : Nat) :
    ∃ st1 inv1 st2 inv2,
      createInvoice st type req ny nm nid ca = .ok (st1, inv1) ∧
      createInvoice st type { req with tanggalInvoice := d } ny nm nid ca =
        .ok (st2, inv2) ∧
      inv2.nomorInvoice = inv1.nomorInvoice ∧
      reTest (patOf type ny nm) inv1.nomorInvoice = true := by
  refine ⟨_, _, _, _, createInvoice_eq st type req ny nm nid ca,
    createInvoice_eq st type { req with tanggalInvoice := d } ny nm nid ca,
    rfl, ?_⟩
  exact reTest_append_self _ _

/-- C10: an add-payment request whose amount is the truthy non-numeric
string "abc" passes the `!amount || amount <= 0` guard (the comparison
with `NaN` is false), and a payment record whose amount is `NaN`
(modelled `none`) is appended to the invoice's payments. -/
theorem add_payment_nan_amount_appended :
    (addPayment sampleStore "hotel" (some 1)
        ⟨JSVal.str "abc", none, none⟩ 7).toOption.map
      (fun p => ((p.1.get CollKey.hotel).find? (fun i => i.docId == 1)).map
        (fun i => i.payments)) = some (some [⟨none, 7, "Pembayaran"⟩]) := by
  with_unfolding_all rfl

/-- C4: at creation, `totalAmount` is the sum of the line items' totals
(missing totals count as 0); when `downPayment > 0` the document gets
exactly one payment record `(downPayment, invoiceDate, "Uang Muka (DP)")`
and status `lunas` (paid) if `downPayment ≥ totalAmount`, else `dp lunas`
(deposit-paid); when `downPayment` is 0 (or absent, which defaults to 0)
the document gets `payments = []` and status `belum lunas` (unpaid). -/
theorem create_down_payment_status (st : Store) (type : String)
    (req : CreateReq) (ny nm nid ca : Nat) :
    ∃ st' inv, createInvoice st type req ny nm nid ca = .ok (st', inv) ∧
      (req.downPayment > 0 →
        inv.payments = [{ amount := some req.downPayment
                          date := req.tanggalInvoice
                          notes := "Uang Muka (DP)" }] ∧
        inv.status = (if req.downPayment ≥ sumTotals req.items then "lunas"
          else "dp lunas")) ∧
      (req.downPayment = 0 →
        inv.payments = [] ∧ inv.status = "belum lunas") := by
  refine ⟨_, _, createInvoice_eq st type req ny nm nid ca, ?_, ?_⟩
  · intro hdp
    constructor
    · show createPayments req = _
      rw [createPayments, if_pos hdp]
    · show createStatus req = _
      rw [createStatus, if_pos hdp]
  · intro hdp
    have hneg : ¬ req.downPayment > 0 := by rw [hdp]; exact lt_irrefl 0
    constructor
    · show createPayments req = _
      rw [createPayments, if_neg hneg]
    · show createStatus req = _
      rw [createStatus, if_neg hneg]

/-- C5: a successful add-payment on an existing invoice appends the new
payment record to `payments`, and the persisted and returned status is
`lunas` (paid) when the sum of all payment amounts (including the new
one) is at least the sum of the line-item totals, else `dp lunas`
(deposit-paid) when that sum is positive, else `belum lunas` (unpaid) —
the `statusRule` derivation applied to the updated document. -/
theorem add_payment_appends_and_derives_status (st : Store) (type : String)
    (oid : Nat) (req : PayReq) (now : Nat) (inv : Invoice)
    (hfind : (st.get (ckOf type)).find? (fun i => i.docId == oid) = some inv)
    (hamt : (jsFalsy req.amount || jsLeqZero req.amount) = false) :
    ∃ st' inv',
      addPayment st type (some oid) req now = .ok (st', inv'.status) ∧
      (st'.get (ckOf type)).find? (fun i => i.docId == oid) = some inv' ∧
      inv'.payments = inv.payments ++ [newPaymentOf req now] ∧
      inv'.items = inv.items ∧
      inv'.status = statusRule (sumPaid inv'.payments) (sumTotals inv'.items) :=
  addPayment_ok st type oid req now inv hfind hamt

/-- C6: an add-payment request whose amount is absent or a non-positive
number is rejected with an InvalidAmount error; the rejection happens
before the handler reads or writes anything, so no stored document
changes (the operation returns no new store state). -/
theorem add_payment_invalid_amount_rejected (st : Store) (type : String)
    (oid : Nat) (req : PayReq) (now : Nat)
    (hbad : req.amount = JSVal.undef ∨ ∃ q, req.amount = JSVal.num q ∧ q ≤ 0) :
    addPayment st type (some oid) req now = .error .invalidAmount := by
  apply addPayment_guard_error
  rcases hbad with h | ⟨q, h, hq⟩
  · rw [h]; rfl
  · rw [h]
    simp only [jsLeqZero, toNumber, decide_eq_true hq, Bool.or_true]

/-- C7: the set-status operation rejects any status value outside
`{lunas, belum lunas, dp lunas}` with an InvalidStatus error, and for a
valid value it overwrites the stored status directly — the rest of the
document (payments, items, totals) is not consulted or changed, so any
transition between the three states is permitted regardless of the
invoice's prior status or totals. -/
theorem set_status_validation_and_override (st : Store) (type : String)
    (oid : Nat) (s : String) (inv : Invoice)
    (hfind : (st.get (ckOf type)).find? (fun i => i.docId == oid) = some inv) :
    (validStatuses.contains s = false →
      setStatus st type (some oid) s = .error .invalidStatus) ∧
    (validStatuses.contains s = true →
      ∃ st', setStatus st type (some oid) s = .ok st' ∧
        (st'.get (ckOf type)).find? (fun i => i.docId == oid) =
          some { inv with status := s }) := by
  have hck : getCollection type = some (ckOf type) := rfl
  constructor
  · intro hs
    simp only [setStatus, hck, hs, Bool.not_false, if_true]
  · intro hs
    refine ⟨st.set (ckOf type)
      (updateById (st.get (ckOf type)) oid (fun i => { i with status := s })),
      ?_, ?_⟩
    · simp only [setStatus, hck, hs, Bool.not_true, Bool.false_eq_true, if_false,
        hfind, Option.isNone_some]
    · rw [Store.get_set, find?_updateById_status, hfind, Option.map_some']

/-- C8 (counterexample): a create with no down payment and an empty line
item list (total 0) stores status `belum lunas` (unpaid), while the
derivation rule comparing `sum(payments.amount) = 0` against
`sum(lineItems.total) = 0` yields `lunas` (paid, since `0 ≥ 0`) — so the
claimed invariant fails immediately after this creation. -/
theorem create_zero_total_status_inconsistent :
    (createInvoice ⟨[], []⟩ "hotel" ⟨"Z", "T", 0, [], 0⟩ 2025 10 1 0).toOption.map
      (fun p => (p.2.status,
        statusRule (sumPaid p.2.payments) (sumTotals p.2.items))) =
      some ("belum lunas", "lunas") := by
  with_unfolding_all rfl

/-- C8 (amended): the stored status agrees with the derivation rule
(`statusRule` over `sum(payments.amount)` vs `sum(lineItems.total)`)
immediately after every successful add-payment, and after every create
whose line-item total is positive or whose down payment is positive; in
the remaining case (no down payment, non-positive total) the create
stores `belum lunas` although the rule yields `lunas`. -/
theorem status_invariant_amended (st : Store) (type : String)
    (req : CreateReq) (ny nm nid ca oid : Nat) (preq : PayReq) (now : Nat) :
    ((0 < sumTotals req.items ∨ 0 < req.downPayment) →
      ∀ st' inv, createInvoice st type req ny nm nid ca = .ok (st', inv) →
        inv.status = statusRule (sumPaid inv.payments) (sumTotals inv.items)) ∧
    (∀ st' s, addPayment st type (some oid) preq now = .ok (st', s) →
      ∀ inv', (st'.get (ckOf type)).find? (fun i => i.docId == oid) = some inv' →
        inv'.status = statusRule (sumPaid inv'.payments) (sumTotals inv'.items)) := by
  constructor
  · intro hpos st' inv hok
    rw [createInvoice_eq] at hok
    simp only [Except.ok.injEq, Prod.mk.injEq] at hok
    obtain ⟨-, rfl⟩ := hok
    show createStatus req =
      statusRule (sumPaid (createPayments req)) (sumTotals req.items)
    by_cases hdp : req.downPayment > 0
    · rw [createStatus, if_pos hdp, createPayments, if_pos hdp]
      have hsp : sumPaid [{ amount := some req.downPayment
                            date := req.tanggalInvoice
                            notes := "Uang Muka (DP)" }] = req.downPayment := by
        simp [sumPaid, orZero]
      rw [hsp, statusRule]
      by_cases hge : req.downPayment ≥ sumTotals req.items
      · rw [if_pos hge, if_pos hge]
      · rw [if_neg hge, if_neg hge, if_pos hdp]
    · have htot : 0 < sumTotals req.items := by
        rcases hpos with h | h
        · exact h
        · exact absurd h hdp
      rw [createStatus, if_neg hdp, createPayments, if_neg hdp]
      have hsp : sumPaid [] = 0 := rfl
      rw [hsp, statusRule, if_neg (by exact not_le.mpr htot),
        if_neg (lt_irrefl 0)]
  · exact fun st' s h => addPayment_ok_inversion st type oid preq now st' s h

/-- C3: the invoice number assigned at creation is
`prefix/year/twoDigitMonth/fourDigitSequence`: the sequence is 1 when no
document in the target collection matches the `prefix/year/month/`
pattern, and otherwise is the parsed trailing integer of the matching
document with the largest invoice number, plus 1, zero-padded to 4
digits. -/
theorem create_invoice_number_sequence (st : Store) (type : String)
    (req : CreateReq) (ny nm nid ca : Nat) :
    ((∀ i ∈ st.get (ckOf type),
        reTest (patOf type ny nm) i.nomorInvoice = false) →
      ∃ st' inv, createInvoice st type req ny nm nid ca = .ok (st', inv) ∧
        inv.nomorInvoice = patOf type ny nm ++ "0001") ∧
    (∀ m k, m ∈ st.get (ckOf type) →
      reTest (patOf type ny nm) m.nomorInvoice = true →
      (∀ i ∈ st.get (ckOf type),
        reTest (patOf type ny nm) i.nomorInvoice = true →
          strLtB m.nomorInvoice i.nomorInvoice = false) →
      jsParseInt (lastSegment m.nomorInvoice) = some k →
      ∃ st' inv, createInvoice st type req ny nm nid ca = .ok (st', inv) ∧
        inv.nomorInvoice =
          patOf type ny nm ++ padStart (toString (k + 1)) 4 '0') := by
  constructor
  · intro hnone
    refine ⟨_, _, createInvoice_eq st type req ny nm nid ca, ?_⟩
    have hfilter : (st.get (ckOf type)).filter
        (fun i => reTest (patOf type ny nm) i.nomorInvoice) = [] := by
      rw [List.filter_eq_nil_iff]
      intro a ha
      rw [hnone a ha]
      exact Bool.false_ne_true
    have hseq : nextSeq (st.get (ckOf type)) (patOf type ny nm) = some 1 := by
      simp only [nextSeq, hfilter, findMaxNomor]
    show patOf type ny nm ++
      padStart (numToStr (nextSeq (st.get (ckOf type)) (patOf type ny nm))) 4 '0' = _
    rw [hseq]
    rfl
  · intro m k hm hmt hmax hparse
    refine ⟨_, _, createInvoice_eq st type req ny nm nid ca, ?_⟩
    have hmem : m ∈ (st.get (ckOf type)).filter
        (fun i => reTest (patOf type ny nm) i.nomorInvoice) :=
      List.mem_filter.mpr ⟨hm, hmt⟩
    obtain ⟨j, hj⟩ : ∃ j, findMaxNomor ((st.get (ckOf type)).filter
        (fun i => reTest (patOf type ny nm) i.nomorInvoice)) = some j := by
      cases hl : (st.get (ckOf type)).filter
          (fun i => reTest (patOf type ny nm) i.nomorInvoice) with
      | nil => rw [hl] at hmem; cases hmem
      | cons a as =>
          cases hfm : findMaxNomor (a :: as) with
          | none => exact absurd hfm (findMaxNomor_ne_none a as)
          | some j => exact ⟨j, rfl⟩
    obtain ⟨hjmem, hjmax⟩ := findMaxNomor_spec _ _ hj
    obtain ⟨hjcoll, hjre⟩ := List.mem_filter.mp hjmem
    have heq : j.nomorInvoice = m.nomorInvoice :=
      strLtB_eq_of_not_lt _ _ (hjmax m hmem) (hmax j hjcoll hjre)
    have hne : ¬ m.nomorInvoice = "" := reTest_patOf_ne_empty type ny nm _ hmt
    have hseq : nextSeq (st.get (ckOf type)) (patOf type ny nm) =
        some (k + 1) := by
      simp only [nextSeq, hj, heq, if_neg hne, hparse, Option.map_some']
    show patOf type ny nm ++
      padStart (numToStr (nextSeq (st.get (ckOf type)) (patOf type ny nm))) 4 '0' = _
    rw [hseq]
    rfl

/-! ## Witnesses -/

/-- C3 witness: creating a hotel invoice while `INV/SV/2025/10/0001` is
stored allocates `INV/SV/2025/10/0002`. -/
theorem create_invoice_number_sequence_witness :
    ∃ st' inv, createInvoice sampleStore "hotel" ⟨"A", "T", 0, [], 0⟩ 2025 10 9 0 =
      .ok (st', inv) ∧ inv.nomorInvoice = "INV/SV/2025/10/0002" := by
  obtain ⟨st', inv, hok, hn⟩ :=
    (create_invoice_number_sequence sampleStore "hotel" ⟨"A", "T", 0, [], 0⟩
      2025 10 9 0).2 sampleInv 1 (by decide) (by decide) (by decide)
      (by with_unfolding_all rfl)
  exact ⟨st', inv, hok, hn.trans (by with_unfolding_all rfl)⟩

/-- C4 witness: line items totalling 15 with a down payment of 5 yield
one seeded payment record and status `dp lunas`. -/
theorem create_down_payment_status_witness :
    ∃ st' inv, createInvoice ⟨[], []⟩ "tp" ⟨"C", "T", 3, [⟨some 15⟩], 5⟩ 2025 10 1 0 =
      .ok (st', inv) ∧
      inv.payments = [⟨some 5, 3, "Uang Muka (DP)"⟩] ∧ inv.status = "dp lunas" := by
  obtain ⟨st', inv, hok, hpos, -⟩ :=
    create_down_payment_status ⟨[], []⟩ "tp" ⟨"C", "T", 3, [⟨some 15⟩], 5⟩ 2025 10 1 0
  obtain ⟨hp, hs⟩ := hpos (by norm_num)
  exact ⟨st', inv, hok, hp, hs.trans (by with_unfolding_all rfl)⟩

/-- C5 witness: adding a payment of 4 to the stored sample invoice (total
10, nothing paid) appends the record and persists/returns the derived
status. -/
theorem add_payment_appends_and_derives_status_witness :
    ∃ st' inv',
      addPayment sampleStore "hotel" (some 1)
          ⟨JSVal.num 4, some 2, some "Cicilan"⟩ 9 = .ok (st', inv'.status) ∧
      (st'.get (ckOf "hotel")).find? (fun i => i.docId == 1) = some inv' ∧
      inv'.payments = sampleInv.payments ++
        [newPaymentOf ⟨JSVal.num 4, some 2, some "Cicilan"⟩ 9] ∧
      inv'.items = sampleInv.items ∧
      inv'.status = statusRule (sumPaid inv'.payments) (sumTotals inv'.items) :=
  add_payment_appends_and_derives_status sampleStore "hotel" 1
    ⟨JSVal.num 4, some 2, some "Cicilan"⟩ 9 sampleInv
    (by with_unfolding_all rfl) (by with_unfolding_all rfl)

/-- C6 witness: a payment of -3 on the stored sample invoice is rejected
with InvalidAmount. -/
theorem add_payment_invalid_amount_rejected_witness :
    addPayment sampleStore "hotel" (some 1) ⟨JSVal.num (-3), none, none⟩ 0 =
      .error .invalidAmount :=
  add_payment_invalid_amount_rejected sampleStore "hotel" 1
    ⟨JSVal.num (-3), none, none⟩ 0 (Or.inr ⟨-3, rfl, by norm_num⟩)

/-- C7 witness: setting status `lunas` on the stored sample invoice
(which has no payments at all) succeeds and overwrites the status
field only. -/
theorem set_status_validation_and_override_witness :
    ∃ st', setStatus sampleStore "hotel" (some 1) "lunas" = .ok st' ∧
      (st'.get (ckOf "hotel")).find? (fun i => i.docId == 1) =
        some { sampleInv with status := "lunas" } :=
  (set_status_validation_and_override sampleStore "hotel" 1 "lunas" sampleInv
    (by with_unfolding_all rfl)).2 (by decide)

/-- C8 witness: a create with a positive line-item total satisfies the
status/totals invariant. -/
theorem status_invariant_amended_witness :
    ∃ st' inv, createInvoice ⟨[], []⟩ "hotel" ⟨"W", "T", 1, [⟨some 10⟩], 4⟩
      2025 10 3 0 = .ok (st', inv) ∧
      inv.status = statusRule (sumPaid inv.payments) (sumTotals inv.items) := by
  have h := (status_invariant_amended ⟨[], []⟩ "hotel" ⟨"W", "T", 1, [⟨some 10⟩], 4⟩
    2025 10 3 0 1 ⟨JSVal.num 1, none, none⟩ 0).1 (Or.inr (show (0:ℚ) < 4 by norm_num))
  exact ⟨_, _, rfl, h _ _ rfl⟩

end InvoiceTax
